import Mathlib

/-!
Shallow embedding of `storage/intent_resolver.go` (the intent resolution
subsystem): `maybePushTransactions`, `resolveIntents`,
`processWriteIntentError` and the per-item body of `processIntentsAsync`.

External collaborators (the cluster client, the replica's write path, the
task pool, the clock) are modelled as explicit environment records; each
embedded function returns a trace structure recording the requests it
built, which dispatches it performed, and the error it returned, exactly
following the control flow of the Go source.
-/

namespace IntentResolver

/-- A key is an opaque byte string (`roachpb.Key`). -/
abbrev Key := List Nat

/-- Hybrid-logical-clock timestamp (wall time, logical tick). -/
structure Timestamp where
  wallTime : Int
  logical : Int
deriving DecidableEq, Repr

/-- Transaction status (`roachpb.TransactionStatus`). -/
inductive TransactionStatus where
  | PENDING
  | COMMITTED
  | ABORTED
deriving DecidableEq, Repr

/-- Minimal transaction identity (`roachpb.TxnMeta`). The ID is `Option`
because the Go field is a nullable pointer. -/
structure TxnMeta where
  id : Option Nat
  key : Key
  epoch : Nat
deriving DecidableEq, Repr

/-- A transaction (`roachpb.Transaction`): embeds a `TxnMeta`, carries status and priority. -/
structure Transaction where
  meta : TxnMeta
  status : TransactionStatus
  priority : Int
deriving DecidableEq, Repr

/-- A span (`roachpb.Span`): an `endKey` of `[]` denotes a single-key span
(`len(EndKey) == 0` in the source). -/
structure Span where
  key : Key
  endKey : Key
deriving DecidableEq, Repr

/-- An intent (`roachpb.Intent`): span, owning transaction metadata, observed status. -/
structure Intent where
  span : Span
  txn : TxnMeta
  status : TransactionStatus
deriving DecidableEq, Repr

/-- The conflict report (`roachpb.WriteIntentError`), with the `Resolved`
bit that governs the client's retry behavior. -/
structure WriteIntentError where
  intents : List Intent
  resolved : Bool
deriving DecidableEq, Repr

/-- An error (`*roachpb.Error`): either a wrapped `WriteIntentError`
(`roachpb.NewError(&wiErr)`) or some other error, kept opaque. -/
inductive PError where
  | writeIntent (e : WriteIntentError)
  | other (n : Nat)
deriving DecidableEq, Repr

/-- Request methods; only `EndTransaction` is inspected by the source. -/
inductive Method where
  | Get
  | Put
  | EndTransaction
  | otherMethod (n : Nat)
deriving DecidableEq, Repr

/-- The facts about `args` the source reads: `args.Method()` and
`roachpb.IsReadOnly(args)` (a fixed attribute of the request type). -/
structure RequestInfo where
  method : Method
  isReadOnly : Bool
deriving DecidableEq, Repr

/-- A request header (`roachpb.Header`): optional caller transaction, read timestamp, and the
user priority used when synthesizing a pusher. -/
structure Header where
  txn : Option Transaction
  timestamp : Timestamp
  userPriority : Int
deriving DecidableEq, Repr

/-- Push type (`roachpb.PushTxnType`). -/
inductive PushTxnType where
  | PUSH_ABORT
  | PUSH_TIMESTAMP
  | PUSH_TOUCH
deriving DecidableEq, Repr

/-- A push request (`roachpb.PushTxnRequest`) as built by `maybePushTransactions`: the span
key is the pushee's anchor key `intent.Txn.Key`. -/
structure PushTxnRequest where
  key : Key
  pusherTxn : Transaction
  pusheeTxn : TxnMeta
  pushTo : Timestamp
  now : Timestamp
  pushType : PushTxnType
deriving DecidableEq, Repr

/-- Modelled from the spec: `roachpb.MakePriority` (external to the file
under study) derives a pusher priority from the header's user priority;
only the resulting value is threaded through, no claim depends on it. -/
def MakePriority (userPriority : Int) : Int :=
  userPriority

/-- Outcome of `ir.store.db.RunWithResponse(b)` for the push batch: an
error, or one `PushTxnResponse.PusheeTxn` per request, indexed by position
(`br.Responses[i]`). -/
structure PushEnv where
  run : List PushTxnRequest → Except PError (Nat → Transaction)

/-- What a call to `maybePushTransactions` produced: the push requests it
built, the returned resolvable-intent slice, and the returned error. -/
structure PushOutcome where
  pushReqs : List PushTxnRequest
  resolveIntents : List Intent
  pushErr : Option PError
deriving DecidableEq, Repr

/-- The partition loop of `maybePushTransactions`: first component is
`pushIntents` (status `PENDING`), second is the initial `resolveIntents`
(status not `PENDING`), in input order. -/
def partitionIntents : List Intent → List Intent × List Intent
  | [] => ([], [])
  | intent :: rest =>
      let acc := partitionIntents rest
      if intent.status ≠ TransactionStatus.PENDING then
        (acc.1, intent :: acc.2)
      else
        (intent :: acc.1, acc.2)

/-- The response-interpretation loop (`for i, intent := range pushIntents`):
intent `i` gets its `Txn` and `Status` rewritten from response `i`. -/
def interpretPushResponses (resp : Nat → Transaction) : Nat → List Intent → List Intent
  | _, [] => []
  | i, intent :: rest =>
      { intent with txn := (resp i).meta, status := (resp i).status }
        :: interpretPushResponses resp (i + 1) rest

/-- The pusher-identity step of `maybePushTransactions`: the header's
transaction if there is one, otherwise a synthesized pusher carrying only
a priority derived from the header's user priority. -/
def pusherTxnOf (h : Header) : Transaction :=
  match h.txn with
  | some t => t
  | none =>
      { meta := { id := none, key := [], epoch := 0 }
        status := TransactionStatus.PENDING
        priority := MakePriority h.userPriority }

/-- Builds one `PushTxnRequest` for a push-needed intent. -/
def mkPushReq (pusherTxn : Transaction) (h : Header) (now : Timestamp)
    (pushType : PushTxnType) (intent : Intent) : PushTxnRequest :=
  { key := intent.txn.key
    pusherTxn := pusherTxn
    pusheeTxn := intent.txn
    pushTo := h.timestamp
    now := now
    pushType := pushType }

/-- The pusher (`intentResolver.maybePushTransactions`). `now` is the clock observation
`ir.store.Clock().Now()` taken inside the function. On a batch error the
source returns `nil, err` (dropping the already-finalized intents — noted
in the source as a TODO). -/
def maybePushTransactions (intents : List Intent) (h : Header)
    (pushType : PushTxnType) (now : Timestamp) (env : PushEnv) : PushOutcome :=
  let pusherTxn := pusherTxnOf h
  let parts := partitionIntents intents
  let pushIntents := parts.1
  let resolveIntents := parts.2
  let pushReqs := pushIntents.map (mkPushReq pusherTxn h now pushType)
  match env.run pushReqs with
  | Except.error err =>
      { pushReqs := pushReqs, resolveIntents := [], pushErr := some err }
  | Except.ok resp =>
      { pushReqs := pushReqs
        resolveIntents := resolveIntents ++ interpretPushResponses resp 0 pushIntents
        pushErr := none }

/-- The replica operations the resolver consumes (external collaborator):
key containment and the descriptor's bounds. -/
structure Replica where
  containsKey : Key → Bool
  containsKeyRange : Key → Key → Bool
  startKey : Key
  endKey : Key

/-- A `ResolveIntentRequest` (`isRange = false`) or
`ResolveIntentRangeRequest` (`isRange = true`). -/
structure ResolveReq where
  isRange : Bool
  span : Span
  intentTxn : TxnMeta
  status : TransactionStatus
  poison : Bool
deriving DecidableEq, Repr

/-- How a batch was executed: synchronously on the caller's task, or
handed to the task pool. -/
inductive RunMode where
  | sync
  | async
deriving DecidableEq, Repr

/-- Environment of a `resolveIntents` call: whether
`Stopper().RunAsyncTask` accepts each submission (false iff draining), and
the error produced by each batch when it runs (`addWriteCmd` for the local
batch, `DB().Run` for the remote one). -/
structure ResolveEnv where
  acceptLocal : Bool
  acceptRemote : Bool
  localResult : Option PError
  remoteResult : Option PError
deriving DecidableEq, Repr

/-- What a call to `resolveIntents` did: the two batches it built, how (and
whether) each was dispatched, and the error it returned. -/
structure ResolveOutcome where
  baLocal : List ResolveReq
  reqsRemote : List ResolveReq
  localRun : Option RunMode
  remoteRun : Option RunMode
  err : Option PError
deriving DecidableEq, Repr

/-- The per-intent request construction of `resolveIntents`: point request
when `len(intent.EndKey) == 0`, range request otherwise; the caller's
poison flag is copied into the request. -/
def toResolveReq (poison : Bool) (intent : Intent) : ResolveReq :=
  if intent.span.endKey.isEmpty then
    { isRange := false
      span := intent.span
      intentTxn := intent.txn
      status := intent.status
      poison := poison }
  else
    { isRange := true
      span := intent.span
      intentTxn := intent.txn
      status := intent.status
      poison := poison }

/-- The per-intent locality test of `resolveIntents`:
`r.ContainsKey(intent.Key)` for a point intent,
`r.ContainsKeyRange(intent.Key, intent.EndKey)` for a ranged one. -/
def isLocalIntent (r : Replica) (intent : Intent) : Bool :=
  if intent.span.endKey.isEmpty then
    r.containsKey intent.span.key
  else
    r.containsKeyRange intent.span.key intent.span.endKey

/-- The split loop of `resolveIntents`: local requests into `baLocal`,
the rest into `reqsRemote`, in input order. -/
def splitIntents (r : Replica) (poison : Bool) :
    List Intent → List ResolveReq × List ResolveReq
  | [] => ([], [])
  | intent :: rest =>
      let acc := splitIntents r poison rest
      if isLocalIntent r intent then
        (toResolveReq poison intent :: acc.1, acc.2)
      else
        (acc.1, toResolveReq poison intent :: acc.2)

/-- The remote half of `resolveIntents` (runs only if the local half did
not return early): dispatch `reqsRemote` synchronously when `wait` is true
or the pool declines, asynchronously otherwise; async errors are only
logged. -/
def resolveRemotePhase (baLocal reqsRemote : List ResolveReq) (wait : Bool)
    (env : ResolveEnv) (localRun : Option RunMode) : ResolveOutcome :=
  if reqsRemote.isEmpty then
    { baLocal := baLocal, reqsRemote := reqsRemote, localRun := localRun
      remoteRun := none, err := none }
  else if wait || !env.acceptRemote then
    { baLocal := baLocal, reqsRemote := reqsRemote, localRun := localRun
      remoteRun := some RunMode.sync, err := env.remoteResult }
  else
    { baLocal := baLocal, reqsRemote := reqsRemote, localRun := localRun
      remoteRun := some RunMode.async, err := none }

/-- The resolver (`intentResolver.resolveIntents`). The local batch goes to the replica's
write path, the remote batch through the cluster client; with `wait` true
(or the pool draining) a batch runs synchronously and its error is
returned, ending the call early; async errors are only logged. -/
def resolveIntents (r : Replica) (intents : List Intent) (wait poison : Bool)
    (env : ResolveEnv) : ResolveOutcome :=
  let split := splitIntents r poison intents
  let baLocal := split.1
  let reqsRemote := split.2
  if baLocal.isEmpty then
    resolveRemotePhase baLocal reqsRemote wait env none
  else if wait || !env.acceptLocal then
    match env.localResult with
    | some e =>
        { baLocal := baLocal, reqsRemote := reqsRemote
          localRun := some RunMode.sync, remoteRun := none, err := some e }
    | none =>
        resolveRemotePhase baLocal reqsRemote wait env (some RunMode.sync)
  else
    resolveRemotePhase baLocal reqsRemote wait env (some RunMode.async)

/-- What a call to `processWriteIntentError` did: the pusher's outcome, the
trace of the embedded `resolveIntents` call (made with `wait=false`,
`poison=true`), the flags it passed to that call, and the returned error. -/
structure ConflictOutcome where
  push : PushOutcome
  resolveWait : Bool
  resolvePoison : Bool
  resolve : ResolveOutcome
  result : PError
deriving Repr

/-- The writing-transaction test of `processWriteIntentError`:
`h.Txn != nil && h.Txn.ID != nil && !readOnly`. -/
def isWritingTxnCaller (h : Header) (args : RequestInfo) : Bool :=
  match h.txn with
  | some t => t.meta.id.isSome && !args.isReadOnly
  | none => false

/-- The conflict responder (`intentResolver.processWriteIntentError`): push the conflicting
transactions, kick off asynchronous resolution (`wait=false, poison=true`;
its error is only logged), then return the push error (writing
transactional caller), the original conflict error (read-only or
non-transactional caller), or the conflict error with `Resolved=true`
(push succeeded). `now` is the clock observation made inside
`maybePushTransactions`. -/
def processWriteIntentError (wiErr : WriteIntentError) (r : Replica)
    (args : RequestInfo) (h : Header) (pushType : PushTxnType)
    (now : Timestamp) (penv : PushEnv) (renv : ResolveEnv) : ConflictOutcome :=
  let po := maybePushTransactions wiErr.intents h pushType now penv
  let ro := resolveIntents r po.resolveIntents false true renv
  let result :=
    match po.pushErr with
    | some pushErr =>
        if isWritingTxnCaller h args then pushErr
        else PError.writeIntent wiErr
    | none => PError.writeIntent { wiErr with resolved := true }
  { push := po, resolveWait := false, resolvePoison := true
    resolve := ro, result := result }

/-- A GC request (`roachpb.GCRequest`) as built by the async worker: the replica's span
and the list of keys to collect. -/
structure GCRequest where
  key : Key
  endKey : Key
  keys : List Key
deriving DecidableEq, Repr

/-- Modelled from the spec: `keys.TransactionKey` (external to the file
under study) derives the transaction-record key from the transaction's
anchor key and ID; only that it is a function of the two is used. -/
def TransactionKey (key : Key) (txnID : Option Nat) : Key :=
  key ++ [txnID.getD 0]

/-- One element of the `intents []intentsWithArg` argument of
`processIntentsAsync`. -/
structure IntentsWithArg where
  args : RequestInfo
  intents : List Intent

/-- Environment of one async worker task: outcomes of its push batch, its
resolve call, and its GC write (`r.addWriteCmd`; the GC error is only
logged, so it is never read by the model). -/
structure AsyncEnv where
  push : PushEnv
  resolve : ResolveEnv
  gcResult : Option PError

/-- What one async worker task did: the header and push type it handed to
the pusher, the pusher's outcome, the flags it handed to the resolver, the
resolver's outcome, and the GC request, if it issued one. -/
structure ItemTrace where
  pushHeader : Header
  pushType : PushTxnType
  push : PushOutcome
  resolveWait : Bool
  resolvePoison : Bool
  resolve : ResolveOutcome
  gcReq : Option GCRequest
deriving DecidableEq, Repr

/-- The task body `processIntentsAsync` schedules for one item: push with
`PUSH_TOUCH` under a header carrying `now` (the clock observation taken
before the loop), resolve with `wait=true, poison=false`, and — only when
both succeeded and the originating request is an `EndTransaction` — issue
one GC request over the replica's span for the transaction-record key of
`item.intents[0].Txn`. `pushNow` is the later clock observation taken
inside `maybePushTransactions`. The result is `none` exactly when the Go
code would index `item.intents[0]` out of bounds. -/
def processItem (r : Replica) (now pushNow : Timestamp) (item : IntentsWithArg)
    (env : AsyncEnv) : Option ItemTrace :=
  let h : Header := { txn := none, timestamp := now, userPriority := 0 }
  let po := maybePushTransactions item.intents h PushTxnType.PUSH_TOUCH pushNow env.push
  let ro := resolveIntents r po.resolveIntents true false env.resolve
  let base : ItemTrace :=
    { pushHeader := h, pushType := PushTxnType.PUSH_TOUCH, push := po
      resolveWait := true, resolvePoison := false, resolve := ro
      gcReq := none }
  if ro.err.isSome then
    some base
  else if po.pushErr.isSome then
    some base
  else if item.args.method = Method.EndTransaction then
    match item.intents.head? with
    | none => none
    | some first =>
        let txn := first.txn
        some { base with
          gcReq := some
            { key := r.startKey
              endKey := r.endKey
              keys := [TransactionKey txn.key txn.id] } }
  else
    some base

/-! Concrete example values used by witnesses and counterexamples. -/

/-- Example timestamp. -/
def tsEx : Timestamp := { wallTime := 100, logical := 0 }

/-- Example transaction metadata with a non-nil ID. -/
def txnMetaEx : TxnMeta := { id := some 7, key := [10], epoch := 1 }

/-- Example caller transaction. -/
def txnEx : Transaction :=
  { meta := txnMetaEx, status := TransactionStatus.PENDING, priority := 5 }

/-- Example pending point intent on key `[1]`. -/
def intentPendingEx : Intent :=
  { span := { key := [1], endKey := [] }, txn := txnMetaEx
    status := TransactionStatus.PENDING }

/-- Example committed point intent on key `[2]`. -/
def intentCommittedEx : Intent :=
  { span := { key := [2], endKey := [] }, txn := txnMetaEx
    status := TransactionStatus.COMMITTED }

/-- Example committed point intent on key `[5]`, outside `replicaEx`. -/
def intentRemoteEx : Intent :=
  { span := { key := [5], endKey := [] }, txn := txnMetaEx
    status := TransactionStatus.COMMITTED }

/-- Example replica containing exactly keys `[1]` and `[2]`. -/
def replicaEx : Replica :=
  { containsKey := fun k => decide (k = [1]) || decide (k = [2])
    containsKeyRange := fun _ _ => false
    startKey := [0]
    endKey := [9] }

/-- Example header carrying a transaction with a non-nil ID. -/
def headerEx : Header :=
  { txn := some txnEx, timestamp := tsEx, userPriority := 1 }

/-- Example push-response table: every pushee reported aborted. -/
def respEx : Nat → Transaction := fun _ =>
  { meta := txnMetaEx, status := TransactionStatus.ABORTED, priority := 9 }

/-- Push environment whose batch dispatch succeeds with `respEx`. -/
def penvOk : PushEnv :=
  { run := fun _ => Except.ok respEx }

/-- Push environment whose batch dispatch fails. -/
def penvFail : PushEnv :=
  { run := fun _ => Except.error (PError.other 5) }

/-- Resolve environment where everything is accepted and succeeds. -/
def renvEx : ResolveEnv :=
  { acceptLocal := true, acceptRemote := true
    localResult := none, remoteResult := none }

/-- Resolve environment whose local batch fails when run. -/
def renvLocalFail : ResolveEnv :=
  { acceptLocal := true, acceptRemote := true
    localResult := some (PError.other 7), remoteResult := none }

/-- Resolve environment where the task pool is draining and both batches
fail when run. -/
def renvDecline : ResolveEnv :=
  { acceptLocal := false, acceptRemote := false
    localResult := some (PError.other 7), remoteResult := some (PError.other 8) }

/-- Example non-read-only, non-EndTransaction request. -/
def argsWriteEx : RequestInfo := { method := Method.Put, isReadOnly := false }

/-- Example EndTransaction request. -/
def argsEndTxnEx : RequestInfo :=
  { method := Method.EndTransaction, isReadOnly := false }

/-- Async environment where push and resolve succeed. -/
def aenvEx : AsyncEnv := { push := penvOk, resolve := renvEx, gcResult := none }

/-- Example async work item: an EndTransaction request with one
already-committed intent. -/
def itemEx : IntentsWithArg :=
  { args := argsEndTxnEx, intents := [intentCommittedEx] }

/-- The trace `processItem` produces on `itemEx` under `aenvEx`, written
out concretely. -/
def traceEx : ItemTrace :=
  { pushHeader := { txn := none, timestamp := tsEx, userPriority := 0 }
    pushType := PushTxnType.PUSH_TOUCH
    push := { pushReqs := [], resolveIntents := [intentCommittedEx], pushErr := none }
    resolveWait := true
    resolvePoison := false
    resolve :=
      { baLocal := [{ isRange := false, span := { key := [2], endKey := [] }
                      intentTxn := txnMetaEx, status := TransactionStatus.COMMITTED
                      poison := false }]
        reqsRemote := []
        localRun := some RunMode.sync
        remoteRun := none
        err := none }
    gcReq := some { key := [0], endKey := [9], keys := [[10, 7]] } }

/-! Helper lemmas. -/

/-- The partition loop selects exactly the `PENDING` intents for pushing
and the rest for immediate resolution, preserving input order. -/
theorem partitionIntents_eq (l : List Intent) :
    partitionIntents l =
      (l.filter (fun i => decide (i.status = TransactionStatus.PENDING)),
       l.filter (fun i => !decide (i.status = TransactionStatus.PENDING))) := by
  induction l with
  | nil => rfl
  | cons intent rest ih =>
      by_cases hst : intent.status = TransactionStatus.PENDING <;>
        simp [partitionIntents, ih, hst, List.filter_cons]

/-- The split loop of the resolver is filter-then-map on each side. -/
theorem splitIntents_eq (r : Replica) (poison : Bool) (l : List Intent) :
    splitIntents r poison l =
      ((l.filter (fun i => isLocalIntent r i)).map (toResolveReq poison),
       (l.filter (fun i => !isLocalIntent r i)).map (toResolveReq poison)) := by
  induction l with
  | nil => rfl
  | cons intent rest ih =>
      cases hl : isLocalIntent r intent <;>
        simp [splitIntents, ih, hl, List.filter_cons]

/-- Filtering on a predicate and on its negation partitions the length. -/
theorem length_filter_partition {α : Type} (p : α → Bool) (l : List α) :
    (l.filter p).length + (l.filter (fun a => !p a)).length = l.length := by
  induction l with
  | nil => rfl
  | cons a rest ih =>
      cases hp : p a <;> simp [List.filter_cons, hp] <;> omega

/-- Response interpretation keeps the list length. -/
theorem interpretPushResponses_length (resp : Nat → Transaction) (i : Nat)
    (l : List Intent) :
    (interpretPushResponses resp i l).length = l.length := by
  induction l generalizing i with
  | nil => rfl
  | cons intent rest ih => simp [interpretPushResponses, ih]

/-- Element `j` of the interpreted list is input element `j` with its
transaction metadata and status rewritten from response `i + j`. -/
theorem interpretPushResponses_getElem (resp : Nat → Transaction) :
    ∀ (l : List Intent) (i j : Nat),
      (interpretPushResponses resp i l)[j]? =
        (l[j]?).map (fun intent =>
          { intent with txn := (resp (i + j)).meta
                        status := (resp (i + j)).status }) := by
  intro l
  induction l with
  | nil => intro i j; simp [interpretPushResponses]
  | cons intent rest ih =>
      intro i j
      cases j with
      | zero => simp [interpretPushResponses]
      | succ j' =>
          have harith : i + 1 + j' = i + (j' + 1) := by omega
          simp only [interpretPushResponses, List.getElem?_cons_succ, ih (i + 1) j',
            harith]

/-- When the push batch dispatch succeeds, `maybePushTransactions` keeps
the finalized intents and appends the rewritten pushed intents. -/
theorem maybePushTransactions_ok (intents : List Intent) (h : Header)
    (pushType : PushTxnType) (now : Timestamp) (env : PushEnv)
    (resp : Nat → Transaction)
    (hok : env.run ((partitionIntents intents).1.map
        (mkPushReq (pusherTxnOf h) h now pushType)) = Except.ok resp) :
    maybePushTransactions intents h pushType now env =
      { pushReqs := (partitionIntents intents).1.map
          (mkPushReq (pusherTxnOf h) h now pushType)
        resolveIntents := (partitionIntents intents).2 ++
          interpretPushResponses resp 0 (partitionIntents intents).1
        pushErr := none } := by
  simp only [maybePushTransactions]
  rw [hok]

/-- When the push batch dispatch fails, `maybePushTransactions` returns
the error and an empty resolvable set. -/
theorem maybePushTransactions_error (intents : List Intent) (h : Header)
    (pushType : PushTxnType) (now : Timestamp) (env : PushEnv) (e : PError)
    (herr : env.run ((partitionIntents intents).1.map
        (mkPushReq (pusherTxnOf h) h now pushType)) = Except.error e) :
    maybePushTransactions intents h pushType now env =
      { pushReqs := (partitionIntents intents).1.map
          (mkPushReq (pusherTxnOf h) h now pushType)
        resolveIntents := []
        pushErr := some e } := by
  simp only [maybePushTransactions]
  rw [herr]

/-- The local batch of a `resolveIntents` call is the first component of
the split, in every control-flow branch. -/
theorem resolveIntents_baLocal (r : Replica) (intents : List Intent)
    (wait poison : Bool) (env : ResolveEnv) :
    (resolveIntents r intents wait poison env).baLocal =
      (splitIntents r poison intents).1 := by
  simp only [resolveIntents, resolveRemotePhase]
  repeat' split
  all_goals rfl

/-- The remote batch of a `resolveIntents` call is the second component of
the split, in every control-flow branch. -/
theorem resolveIntents_reqsRemote (r : Replica) (intents : List Intent)
    (wait poison : Bool) (env : ResolveEnv) :
    (resolveIntents r intents wait poison env).reqsRemote =
      (splitIntents r poison intents).2 := by
  simp only [resolveIntents, resolveRemotePhase]
  repeat' split
  all_goals rfl

/-- Every request built by `toResolveReq` carries the given poison flag. -/
theorem toResolveReq_poison (poison : Bool) (intent : Intent) :
    (toResolveReq poison intent).poison = poison := by
  by_cases hh : intent.span.endKey.isEmpty <;> simp [toResolveReq, hh]

/-- On an empty intent list `resolveIntents` builds no batch, dispatches
nothing and returns no error. -/
theorem resolveIntents_nil (r : Replica) (wait poison : Bool) (env : ResolveEnv) :
    resolveIntents r [] wait poison env =
      { baLocal := [], reqsRemote := [], localRun := none, remoteRun := none
        err := none } :=
  rfl

/-! Claim theorems. -/

/-- C1: `processWriteIntentError` returns exactly one of three outcomes
determined by the push result and caller kind: push success yields the
original conflict error with `Resolved := true`; a push failure with a
transactional (non-nil ID) non-read-only caller yields the push error
itself; a push failure with a read-only or non-transactional caller yields
the original conflict error unchanged (`Resolved` stays unset); and the
outcome of the asynchronous resolve kick-off never affects the returned
value. -/
theorem C1_conflict_responder_outcomes (wiErr : WriteIntentError) (r : Replica)
    (args : RequestInfo) (h : Header) (pushType : PushTxnType) (now : Timestamp)
    (penv : PushEnv) (renv : ResolveEnv) :
    ((maybePushTransactions wiErr.intents h pushType now penv).pushErr = none →
      (processWriteIntentError wiErr r args h pushType now penv renv).result =
        PError.writeIntent { wiErr with resolved := true }) ∧
    (∀ pe, (maybePushTransactions wiErr.intents h pushType now penv).pushErr = some pe →
      isWritingTxnCaller h args = true →
      (processWriteIntentError wiErr r args h pushType now penv renv).result = pe) ∧
    (∀ pe, (maybePushTransactions wiErr.intents h pushType now penv).pushErr = some pe →
      isWritingTxnCaller h args = false →
      (processWriteIntentError wiErr r args h pushType now penv renv).result =
        PError.writeIntent wiErr) ∧
    (∀ renv' : ResolveEnv,
      (processWriteIntentError wiErr r args h pushType now penv renv').result =
        (processWriteIntentError wiErr r args h pushType now penv renv).result) := by
  refine ⟨fun hnone => ?_, fun pe hsome hw => ?_, fun pe hsome hw => ?_, fun renv' => rfl⟩
  · simp [processWriteIntentError, hnone]
  · simp [processWriteIntentError, hsome, hw]
  · simp [processWriteIntentError, hsome, hw]

/-- Witness for C1 at a concrete input: the push fails and the caller is a
writing transaction, so the push error itself comes back. -/
theorem C1_witness :
    (maybePushTransactions [intentPendingEx] headerEx PushTxnType.PUSH_ABORT tsEx
        penvFail).pushErr = some (PError.other 5) ∧
    isWritingTxnCaller headerEx argsWriteEx = true ∧
    (processWriteIntentError { intents := [intentPendingEx], resolved := false }
        replicaEx argsWriteEx headerEx PushTxnType.PUSH_ABORT tsEx penvFail
        renvEx).result = PError.other 5 := by
  refine ⟨by decide, by decide, ?_⟩
  exact (C1_conflict_responder_outcomes
      { intents := [intentPendingEx], resolved := false } replicaEx argsWriteEx
      headerEx PushTxnType.PUSH_ABORT tsEx penvFail renvEx).2.1
    (PError.other 5) (by decide) (by decide)

/-- C2: counter-evidence. On a failing push batch dispatch the source
returns `nil, err` (see the TODO at the dispatch site), so the resolvable
set comes back empty and the already-finalized `intentCommittedEx` is
dropped, contradicting the claim that it is still returned. -/
theorem C2_push_error_drops_finalized :
    (maybePushTransactions [intentCommittedEx, intentPendingEx] headerEx
        PushTxnType.PUSH_ABORT tsEx penvFail).pushErr = some (PError.other 5) ∧
    (maybePushTransactions [intentCommittedEx, intentPendingEx] headerEx
        PushTxnType.PUSH_ABORT tsEx penvFail).resolveIntents = [] := by
  exact ⟨rfl, rfl⟩

/-- C4: every intent yields exactly one resolve request — a point request
iff its `endKey` is empty — locality is full containment of the key
(point) or the whole range (ranged), local requests form the local batch
and the rest the remote batch, with no request dropped or duplicated. -/
theorem C4_local_remote_split (r : Replica) (intents : List Intent)
    (wait poison : Bool) (env : ResolveEnv) :
    (resolveIntents r intents wait poison env).baLocal =
      (intents.filter (fun i => isLocalIntent r i)).map (toResolveReq poison) ∧
    (resolveIntents r intents wait poison env).reqsRemote =
      (intents.filter (fun i => !isLocalIntent r i)).map (toResolveReq poison) ∧
    (resolveIntents r intents wait poison env).baLocal.length +
      (resolveIntents r intents wait poison env).reqsRemote.length =
        intents.length ∧
    (∀ intent : Intent,
      (toResolveReq poison intent).isRange = !intent.span.endKey.isEmpty) ∧
    (∀ intent : Intent, isLocalIntent r intent =
      (if intent.span.endKey.isEmpty then r.containsKey intent.span.key
       else r.containsKeyRange intent.span.key intent.span.endKey)) := by
  refine ⟨?_, ?_, ?_, ?_, fun intent => rfl⟩
  · rw [resolveIntents_baLocal, splitIntents_eq]
  · rw [resolveIntents_reqsRemote, splitIntents_eq]
  · rw [resolveIntents_baLocal, resolveIntents_reqsRemote, splitIntents_eq]
    simp only [List.length_map]
    exact length_filter_partition (fun i => isLocalIntent r i) intents
  · intro intent
    by_cases hh : intent.span.endKey.isEmpty <;> simp [toResolveReq, hh]

/-- C10: a call to `resolveIntents` with an empty intent list builds no
batch, dispatches nothing, and returns no error, for every `wait` and
`poison` argument. -/
theorem C10_empty_resolve (r : Replica) (wait poison : Bool) (env : ResolveEnv) :
    resolveIntents r [] wait poison env =
      { baLocal := [], reqsRemote := [], localRun := none, remoteRun := none
        err := none } :=
  resolveIntents_nil r wait poison env

/-- C3: counterexample. With `wait = true` and a local batch that fails,
the call returns the local error before the nonempty remote batch is ever
dispatched, refuting the claim that `resolveIntents` with `wait=true`
dispatches both batches for every intent set. -/
theorem C3_counterexample :
    (resolveIntents replicaEx [intentPendingEx, intentRemoteEx] true true
        renvLocalFail).reqsRemote ≠ [] ∧
    (resolveIntents replicaEx [intentPendingEx, intentRemoteEx] true true
        renvLocalFail).remoteRun = none ∧
    (resolveIntents replicaEx [intentPendingEx, intentRemoteEx] true true
        renvLocalFail).err = some (PError.other 7) := by
  exact ⟨by decide, by decide, by decide⟩

/-- C3 (amended): with `wait = true` every dispatch is synchronous — the
local batch, when nonempty, runs on the caller and a failure is returned
at once, in which case the remote batch is not dispatched; when the local
batch succeeds (or is empty), the nonempty remote batch runs on the caller
and its result is returned. -/
theorem C3_wait_true_sync (r : Replica) (intents : List Intent) (poison : Bool)
    (env : ResolveEnv) :
    ((resolveIntents r intents true poison env).baLocal ≠ [] →
      (resolveIntents r intents true poison env).localRun = some RunMode.sync) ∧
    (∀ e, (resolveIntents r intents true poison env).baLocal ≠ [] →
      env.localResult = some e →
      (resolveIntents r intents true poison env).err = some e ∧
      (resolveIntents r intents true poison env).remoteRun = none) ∧
    (((resolveIntents r intents true poison env).baLocal = [] ∨
        env.localResult = none) →
      ((resolveIntents r intents true poison env).reqsRemote ≠ [] →
        (resolveIntents r intents true poison env).remoteRun = some RunMode.sync ∧
        (resolveIntents r intents true poison env).err = env.remoteResult) ∧
      ((resolveIntents r intents true poison env).reqsRemote = [] →
        (resolveIntents r intents true poison env).remoteRun = none ∧
        (resolveIntents r intents true poison env).err = none)) ∧
    (resolveIntents r intents true poison env).localRun ≠ some RunMode.async ∧
    (resolveIntents r intents true poison env).remoteRun ≠ some RunMode.async := by
  cases hbl : (splitIntents r poison intents).1 <;>
    cases hrr : (splitIntents r poison intents).2 <;>
      cases hlr : env.localResult <;>
        simp [resolveIntents, resolveRemotePhase, hbl, hrr, hlr]

/-- Witness for C3 (amended) at a concrete input: local batch fails under
`wait = true`, its error is returned and the remote batch stays
undispatched. -/
theorem C3_witness :
    (resolveIntents replicaEx [intentPendingEx, intentRemoteEx] true true
        renvLocalFail).err = some (PError.other 7) ∧
    (resolveIntents replicaEx [intentPendingEx, intentRemoteEx] true true
        renvLocalFail).remoteRun = none :=
  (C3_wait_true_sync replicaEx [intentPendingEx, intentRemoteEx] true
      renvLocalFail).2.1 (PError.other 7) (by decide) (by decide)

/-- C5: every resolve request produced by a `resolveIntents` call carries
exactly that call's poison flag; the synchronous conflict path calls the
resolver with `poison = true` and the async post-commit path with
`poison = false` (each on the pusher's resolvable set, with the wait flag
recorded in the trace). -/
theorem C5_poison_propagation :
    (∀ (r : Replica) (intents : List Intent) (wait poison : Bool)
        (env : ResolveEnv) (req : ResolveReq),
      (req ∈ (resolveIntents r intents wait poison env).baLocal ∨
        req ∈ (resolveIntents r intents wait poison env).reqsRemote) →
      req.poison = poison) ∧
    (∀ (wiErr : WriteIntentError) (r : Replica) (args : RequestInfo) (h : Header)
        (pushType : PushTxnType) (now : Timestamp) (penv : PushEnv)
        (renv : ResolveEnv),
      (processWriteIntentError wiErr r args h pushType now penv renv).resolvePoison
          = true ∧
      (processWriteIntentError wiErr r args h pushType now penv renv).resolve =
        resolveIntents r
          (maybePushTransactions wiErr.intents h pushType now penv).resolveIntents
          false true renv) ∧
    (∀ (r : Replica) (now pushNow : Timestamp) (item : IntentsWithArg)
        (env : AsyncEnv) (t : ItemTrace),
      processItem r now pushNow item env = some t →
      t.resolvePoison = false ∧
      t.resolve = resolveIntents r t.push.resolveIntents true false env.resolve) := by
  refine ⟨?_, fun wiErr r args h pushType now penv renv => ⟨rfl, rfl⟩, ?_⟩
  · intro r intents wait poison env req hmem
    rcases hmem with hmem | hmem
    · rw [resolveIntents_baLocal, splitIntents_eq] at hmem
      obtain ⟨intent, _, hreq⟩ := List.mem_map.mp hmem
      rw [← hreq]
      exact toResolveReq_poison poison intent
    · rw [resolveIntents_reqsRemote, splitIntents_eq] at hmem
      obtain ⟨intent, _, hreq⟩ := List.mem_map.mp hmem
      rw [← hreq]
      exact toResolveReq_poison poison intent
  · intro r now pushNow item env t ht
    simp only [processItem] at ht
    split at ht
    · cases ht; exact ⟨rfl, rfl⟩
    · split at ht
      · cases ht; exact ⟨rfl, rfl⟩
      · split at ht
        · split at ht
          · exact absurd ht (by simp)
          · cases ht; exact ⟨rfl, rfl⟩
        · cases ht; exact ⟨rfl, rfl⟩

/-- Witness for C5 at a concrete input: the point resolve request built
for `intentPendingEx` under `poison = true` carries `poison = true`. -/
theorem C5_witness : (toResolveReq true intentPendingEx).poison = true :=
  C5_poison_propagation.1 replicaEx [intentPendingEx] false true renvEx
    (toResolveReq true intentPendingEx) (Or.inl (by decide))

/-- C6: the pusher's partition step puts each intent in exactly one class
(push-needed iff `PENDING`), and on a successful push batch the returned
resolvable set is the finalized intents unchanged followed by the pushed
intents rewritten from the corresponding push response, as long as the
input and with element `finalized.length + j` coming from pending element
`j` and response `j`. -/
theorem C6_push_partition_rewrite (intents : List Intent) (h : Header)
    (pushType : PushTxnType) (now : Timestamp) (env : PushEnv)
    (resp : Nat → Transaction)
    (hok : env.run ((partitionIntents intents).1.map
        (mkPushReq (pusherTxnOf h) h now pushType)) = Except.ok resp) :
    partitionIntents intents =
      (intents.filter (fun i => decide (i.status = TransactionStatus.PENDING)),
       intents.filter (fun i => !decide (i.status = TransactionStatus.PENDING))) ∧
    (maybePushTransactions intents h pushType now env).pushErr = none ∧
    (maybePushTransactions intents h pushType now env).resolveIntents =
      intents.filter (fun i => !decide (i.status = TransactionStatus.PENDING)) ++
        interpretPushResponses resp 0
          (intents.filter (fun i => decide (i.status = TransactionStatus.PENDING))) ∧
    (maybePushTransactions intents h pushType now env).resolveIntents.length =
      intents.length ∧
    (∀ j, (maybePushTransactions intents h pushType now env).resolveIntents[
        (intents.filter (fun i =>
          !decide (i.status = TransactionStatus.PENDING))).length + j]? =
      ((intents.filter (fun i =>
          decide (i.status = TransactionStatus.PENDING)))[j]?).map
        (fun intent =>
          { intent with txn := (resp j).meta, status := (resp j).status })) ∧
    (∀ j, j < (intents.filter (fun i =>
        !decide (i.status = TransactionStatus.PENDING))).length →
      (maybePushTransactions intents h pushType now env).resolveIntents[j]? =
        (intents.filter (fun i =>
          !decide (i.status = TransactionStatus.PENDING)))[j]?) := by
  have hmp := maybePushTransactions_ok intents h pushType now env resp hok
  have hpart := partitionIntents_eq intents
  refine ⟨hpart, by rw [hmp], ?_, ?_, ?_, ?_⟩
  · rw [hmp, hpart]
  · rw [hmp, hpart]
    simp only [List.length_append, interpretPushResponses_length]
    have := length_filter_partition
      (fun i => decide (i.status = TransactionStatus.PENDING)) intents
    omega
  · intro j
    rw [hmp, hpart]
    dsimp only
    rw [List.getElem?_append_right (Nat.le_add_right _ _), Nat.add_sub_cancel_left,
      interpretPushResponses_getElem]
    simp
  · intro j hj
    rw [hmp, hpart]
    dsimp only
    rw [List.getElem?_append]
    rw [if_pos hj]

/-- Witness for C6 at a concrete input: one committed and one pending
intent, successful push batch; both intents come back, none dropped. -/
theorem C6_witness :
    (maybePushTransactions [intentCommittedEx, intentPendingEx] headerEx
        PushTxnType.PUSH_ABORT tsEx penvOk).resolveIntents.length = 2 ∧
    (maybePushTransactions [intentCommittedEx, intentPendingEx] headerEx
        PushTxnType.PUSH_ABORT tsEx penvOk).pushErr = none :=
  ⟨((C6_push_partition_rewrite [intentCommittedEx, intentPendingEx] headerEx
      PushTxnType.PUSH_ABORT tsEx penvOk respEx rfl).2.2.2.1).trans rfl,
   (C6_push_partition_rewrite [intentCommittedEx, intentPendingEx] headerEx
      PushTxnType.PUSH_ABORT tsEx penvOk respEx rfl).2.1⟩

/-- C7: in `wait = false` mode a batch whose async submission the draining
task pool declines runs synchronously on the caller — the local batch
returns its error directly; the remote batch, when reached (local batch
empty, accepted async, or run without error), returns its result. -/
theorem C7_drain_fallback (r : Replica) (intents : List Intent) (poison : Bool)
    (env : ResolveEnv) :
    (((resolveIntents r intents false poison env).baLocal ≠ [] ∧
        env.acceptLocal = false) →
      (resolveIntents r intents false poison env).localRun = some RunMode.sync ∧
      (∀ e, env.localResult = some e →
        (resolveIntents r intents false poison env).err = some e)) ∧
    (((resolveIntents r intents false poison env).reqsRemote ≠ [] ∧
        env.acceptRemote = false ∧
        ((resolveIntents r intents false poison env).baLocal = [] ∨
          env.acceptLocal = true ∨ env.localResult = none)) →
      (resolveIntents r intents false poison env).remoteRun = some RunMode.sync ∧
      (resolveIntents r intents false poison env).err = env.remoteResult) := by
  cases hbl : (splitIntents r poison intents).1 <;>
    cases hrr : (splitIntents r poison intents).2 <;>
      cases hal : env.acceptLocal <;>
        cases har : env.acceptRemote <;>
          cases hlr : env.localResult <;>
            simp [resolveIntents, resolveRemotePhase, hbl, hrr, hal, har, hlr]

/-- Witness for C7 at a concrete input: pool draining, local batch fails
when run synchronously; its error is the returned error. -/
theorem C7_witness :
    (resolveIntents replicaEx [intentPendingEx] false true renvDecline).localRun =
      some RunMode.sync ∧
    (resolveIntents replicaEx [intentPendingEx] false true renvDecline).err =
      some (PError.other 7) := by
  have hmain := (C7_drain_fallback replicaEx [intentPendingEx] true
    renvDecline).1 ⟨by decide, by decide⟩
  exact ⟨hmain.1, hmain.2 (PError.other 7) (by decide)⟩

/-- C8: whenever an async worker task completes (no out-of-bounds access),
it pushed with `PUSH_TOUCH` under a header whose timestamp is the clock
observation `now` and no transaction, resolved the pusher's resolvable set
with `wait = true, poison = false`, and issued a GC request exactly when
both succeeded and the originating method is `EndTransaction`; that GC
request spans the replica's bounds and lists exactly the transaction
record key derived from the first intent's anchor key and ID; the GC
outcome never changes what the task did. -/
theorem C8_async_worker (r : Replica) (now pushNow : Timestamp)
    (item : IntentsWithArg) (env : AsyncEnv) (t : ItemTrace)
    (ht : processItem r now pushNow item env = some t) :
    t.pushHeader = { txn := none, timestamp := now, userPriority := 0 } ∧
    t.pushType = PushTxnType.PUSH_TOUCH ∧
    t.push = maybePushTransactions item.intents
      { txn := none, timestamp := now, userPriority := 0 }
      PushTxnType.PUSH_TOUCH pushNow env.push ∧
    t.resolveWait = true ∧
    t.resolvePoison = false ∧
    t.resolve = resolveIntents r t.push.resolveIntents true false env.resolve ∧
    (t.gcReq.isSome = true ↔
      (t.resolve.err = none ∧ t.push.pushErr = none ∧
        item.args.method = Method.EndTransaction)) ∧
    (∀ gc, t.gcReq = some gc →
      gc.key = r.startKey ∧ gc.endKey = r.endKey ∧
      ∃ first, item.intents.head? = some first ∧
        gc.keys = [TransactionKey first.txn.key first.txn.id]) ∧
    (∀ g : Option PError,
      processItem r now pushNow item { env with gcResult := g } = some t) := by
  have hg : ∀ g : Option PError,
      processItem r now pushNow item { env with gcResult := g } = some t :=
    fun g => ht
  simp only [processItem] at ht
  split at ht
  next hre =>
    cases ht
    refine ⟨rfl, rfl, rfl, rfl, rfl, rfl, ?_, ?_, hg⟩
    · constructor
      · intro hcontra
        simp at hcontra
      · rintro ⟨hnone, -, -⟩
        rw [hnone] at hre
        simp at hre
    · intro gc hgc
      simp at hgc
  next hre =>
    split at ht
    next hpe =>
      cases ht
      refine ⟨rfl, rfl, rfl, rfl, rfl, rfl, ?_, ?_, hg⟩
      · constructor
        · intro hcontra
          simp at hcontra
        · rintro ⟨-, hnone, -⟩
          rw [hnone] at hpe
          simp at hpe
      · intro gc hgc
        simp at hgc
    next hpe =>
      split at ht
      next hmeth =>
        split at ht
        next hhead =>
          exact absurd ht (by simp)
        next first hhead =>
          cases ht
          refine ⟨rfl, rfl, rfl, rfl, rfl, rfl, ?_, ?_, hg⟩
          · simp only [Option.isSome_some, true_iff]
            exact ⟨Option.not_isSome_iff_eq_none.mp hre,
              Option.not_isSome_iff_eq_none.mp hpe, hmeth⟩
          · intro gc hgc
            cases hgc
            exact ⟨rfl, rfl, first, hhead, rfl⟩
      next hmeth =>
        cases ht
        refine ⟨rfl, rfl, rfl, rfl, rfl, rfl, ?_, ?_, hg⟩
        · constructor
          · intro hcontra
            simp at hcontra
          · rintro ⟨-, -, hET⟩
            exact absurd hET hmeth
        · intro gc hgc
          simp at hgc

/-- Witness for C8 at a concrete input: an EndTransaction item with one
committed intent runs to completion and issues a GC request. -/
theorem C8_witness :
    traceEx.pushType = PushTxnType.PUSH_TOUCH ∧
    traceEx.resolveWait = true ∧
    traceEx.resolvePoison = false ∧
    traceEx.gcReq.isSome = true := by
  obtain ⟨h1, h2, h3, h4, h5, h6, h7, h8, h9⟩ :=
    C8_async_worker replicaEx tsEx tsEx itemEx aenvEx traceEx (by decide)
  exact ⟨h2, h4, h5, h7.mpr ⟨by decide, by decide, by decide⟩⟩

/-- C9: the EndTransaction GC step reads `item.intents[0]` unguarded — an
EndTransaction item with an empty intent list whose push and resolve both
succeed reaches that access out of bounds (modelled as `none`); any item
with a nonempty intent list is processed without the out-of-bounds
access. -/
theorem C9_empty_endtxn_out_of_bounds (r : Replica) (now pushNow : Timestamp)
    (args : RequestInfo) (env : AsyncEnv) (resp : Nat → Transaction)
    (hm : args.method = Method.EndTransaction)
    (hok : env.push.run [] = Except.ok resp) :
    processItem r now pushNow { args := args, intents := [] } env = none ∧
    (∀ (env' : AsyncEnv) (item : IntentsWithArg), item.intents ≠ [] →
      (processItem r now pushNow item env').isSome = true) := by
  constructor
  · have hmp := maybePushTransactions_ok []
      { txn := none, timestamp := now, userPriority := 0 }
      PushTxnType.PUSH_TOUCH pushNow env.push resp hok
    simp [processItem, hmp, resolveIntents_nil, hm, partitionIntents,
      interpretPushResponses]
  · intro env' item hne
    cases hitem : item.intents with
    | nil => exact absurd hitem hne
    | cons first rest =>
        simp only [processItem, hitem, List.head?_cons]
        split
        · rfl
        · split
          · rfl
          · split
            · rfl
            · rfl

/-- Witness for C9 at concrete inputs: an empty-intent EndTransaction item
hits the out-of-bounds access, a one-intent item does not. -/
theorem C9_witness :
    processItem replicaEx tsEx tsEx { args := argsEndTxnEx, intents := [] }
      aenvEx = none ∧
    (processItem replicaEx tsEx tsEx itemEx aenvEx).isSome = true := by
  have hmain := C9_empty_endtxn_out_of_bounds replicaEx tsEx tsEx argsEndTxnEx
    aenvEx respEx (by decide) rfl
  exact ⟨hmain.1, hmain.2 aenvEx itemEx (by decide)⟩

end IntentResolver
